import Mathlib

/-!
Shallow embedding of the authmint token engine
(`src/authmint/services/_token_service.py`, `src/authmint/stores/_jti_store.py`,
`src/authmint/managers/_key_manager.py`).

Time is modelled in integer seconds (the code stores all timestamps as
`int(... .timestamp())`).  The Ed25519 signature primitive is modelled
symbolically: a token records which registered key id signed it, and the
cryptographic check succeeds exactly when the public key resolved from the
header's key id belongs to that same key id.  The jti randomness of
`secrets.token_urlsafe(24)` is an explicit input.  The Redis-backed jti store
is modelled as an association list of (key, absolute expiry time): `SET k v EX
ttl NX` inserts `(k, now + ttl)` only when no live entry exists, `SET k v EX
ttl` overwrites, and a key exists at time `t` exactly when it has an entry
with expiry `≥ t` (Redis treats a key as expired only strictly after its
deadline).  The constant Redis key prefix `token:jti:` is injective on jtis
and is dropped.  Claim validation inside `jwt.decode` follows PyJWT 2.x:
required claims, then `iat > now + leeway` / `nbf > now + leeway` (immature),
`exp <= now - leeway` (expired), then audience and issuer equality.
-/

namespace Authmint

/-- A JSON claim value: the engine only manipulates string and integer
claims. -/
inductive CVal where
  | s (v : String)
  | i (v : Int)
deriving DecidableEq, Repr

/-- A claim set, as the Python `dict[str, Any]` payload (keys are distinct in
every payload the engine builds). -/
abbrev Payload := List (String × CVal)

/-- `claims.get(k)`: first binding of `k` in the payload. -/
def getClaim (p : Payload) (k : String) : Option CVal :=
  match p with
  | [] => none
  | (k0, v) :: rest => if k0 = k then some v else getClaim rest k

/-- Python `int(v)` on a claim value: exact on ints, parses digit strings,
fails (raises) otherwise. -/
def pyInt : CVal → Option Int
  | .i v => some v
  | .s v => v.toInt?

/-- Python `f"{v}"` string interpolation of a claim value. -/
def cvalStr : CVal → String
  | .s v => v
  | .i v => toString v

/-- Interpolation of a possibly-missing value (`None` renders as "None"). -/
def optCvalStr : Option CVal → String
  | none => "None"
  | some v => cvalStr v

/-- `TokenConfig` (`src/authmint/config/_token_config.py`): frozen per-token
policy.  `timeout` is the validity duration in seconds. -/
structure TokenConfig where
  issuer : String
  audience : String
  purpose : String
  timeout : Int
  leeway_seconds : Int := 10
  replay_prevent : Bool := true
deriving DecidableEq, Repr

/-! ## Key manager (`src/authmint/managers/_key_manager.py`) -/

/-- PEM key material handed to the constructor: either a loadable Ed25519
private key or key material of some other algorithm family. -/
inductive KeyBlob where
  | ed25519Pem (seed : Nat)
  | otherPem (seed : Nat)
deriving DecidableEq, Repr

/-- Fatal construction-time configuration errors of `KeyManager.__init__`. -/
inductive ConfigError where
  | invalidKeyMaterial (kid : String)
  | missingActiveKey
deriving DecidableEq, Repr

/-- A constructed key manager: the registered key ids (each holding an
Ed25519 key pair; in the symbolic signature model a key pair is identified
with its kid) and the designated current signing kid. -/
structure KeyManager where
  kids : List String
  current_kid : String
deriving DecidableEq, Repr

/-- The constructor's key-loading loop: loads each PEM in order, failing with
`invalidKeyMaterial` (the `ValueError`) at the first non-Ed25519 key. -/
def loadKeys : List (String × KeyBlob) → Except ConfigError (List String)
  | [] => .ok []
  | (kid, blob) :: rest =>
    match blob with
    | .ed25519Pem _ =>
        match loadKeys rest with
        | .ok kids => .ok (kid :: kids)
        | .error e => .error e
    | .otherPem _ => .error (.invalidKeyMaterial kid)

/-- `KeyManager.__init__(jwk_set)` with `TOKEN_CURRENT_KID` read from the
environment: loads every key, then requires a non-empty current kid that
references a loaded key (`RuntimeError`, modelled `missingActiveKey`,
otherwise). -/
def KeyManager.build (jwk_set : List (String × KeyBlob)) (env_current : Option String) :
    Except ConfigError KeyManager :=
  match loadKeys jwk_set with
  | .error e => .error e
  | .ok kids =>
    match env_current with
    | none => .error .missingActiveKey
    | some c =>
      if c = "" then .error .missingActiveKey
      else if kids.contains c then .ok ⟨kids, c⟩
      else .error .missingActiveKey

/-! ## Signed tokens -/

/-- A parsed JWT: the (unverified) header's `kid`, the claim payload, and —
symbolically — the key id whose private key produced the signature. -/
structure Token where
  kid : Option String
  payload : Payload
  signer : String
deriving DecidableEq, Repr

/-- `KeyManager.sign(payload)`: signs under the current kid, embedding it in
the header.  `self._priv_keys[kid]` raises `KeyError` when the current kid is
not registered, hence the `Option`. -/
def KeyManager.sign? (km : KeyManager) (payload : Payload) : Option Token :=
  if km.kids.contains km.current_kid then
    some { kid := some km.current_kid, payload := payload, signer := km.current_kid }
  else
    none

/-- Request-time verification failures (`jwt.InvalidTokenError` kinds). -/
inductive VerifyError where
  | malformedHeader
  | unknownKey
  | badSignature
  | incompleteClaims (claim : String)
  | badClaimFormat (claim : String)
  | notYetValid
  | expired
  | audienceMismatch
  | issuerMismatch
  | purposeMismatch
  | reused
deriving DecidableEq, Repr

/-- Issuance failures. -/
inductive IssueError where
  | reservedClaimCollision
  | signingKeyUnavailable
deriving DecidableEq, Repr

/-- `KeyManager.get_public_key(kid)`: the PEM public key for a key id
(symbolically identified with the kid), or the unknown-key error
(`InvalidTokenError("Unknown key id")`) when the id was never registered. -/
def KeyManager.get_public_key (km : KeyManager) (kid : String) :
    Except VerifyError String :=
  if km.kids.contains kid then .ok kid else .error .unknownKey

/-! ## Jti store (`src/authmint/stores/_jti_store.py`) -/

/-- Redis contents: for each key, the absolute time at which it expires. -/
abbrev Ledger := List (String × Int)

namespace JtiStore

/-- `EXISTS k` at time `now`: some entry for `k` is still live (Redis keys
are expired strictly after their deadline). -/
def existsKey (st : Ledger) (k : String) (now : Int) : Bool :=
  st.any (fun e => e.1 == k && decide (now ≤ e.2))

/-- `mark(jti, ttl)` at time `now`: `SET k 1 EX ttl NX` — inserts only when
no live entry exists. -/
def mark (st : Ledger) (k : String) (ttl : Int) (now : Int) : Ledger :=
  if existsKey st k now then st else (k, now + ttl) :: st

/-- `revoke(jti, ttl)` at time `now`: `SET k 1 EX ttl` — unconditional
overwrite. -/
def revoke (st : Ledger) (k : String) (ttl : Int) (now : Int) : Ledger :=
  (k, now + ttl) :: st.filter (fun e => !(e.1 == k))

end JtiStore

/-! ## Token service (`src/authmint/services/_token_service.py`) -/

namespace TokenService

/-- The reserved claim names guarded in `issue` (and required by `verify`). -/
def restricted : List String :=
  ["iss", "aud", "sub", "iat", "nbf", "exp", "jti", "purpose"]

/-- `TokenService.issue(sub, config, extra_claims, not_before)`.  `now` is
the current time, `jti` the fresh `secrets.token_urlsafe(24)` output,
`not_before` the offset in seconds (default 0). -/
def issue (km : KeyManager) (sub : String) (config : TokenConfig)
    (extra_claims : Payload) (not_before : Int) (jti : String) (now : Int) :
    Except IssueError Token :=
  let exp := now + config.timeout
  let nbf := now + not_before
  let claims : Payload :=
    [("iss", .s config.issuer), ("aud", .s config.audience), ("sub", .s sub),
     ("iat", .i now), ("nbf", .i nbf), ("exp", .i exp),
     ("jti", .s jti), ("purpose", .s config.purpose)]
  if extra_claims.any (fun kv => restricted.contains kv.1) then
    .error .reservedClaimCollision
  else
    match km.sign? (claims ++ extra_claims) with
    | some t => .ok t
    | none => .error .signingKeyUnavailable

/-- Fetch a required integer claim the way PyJWT does (`int(payload[c])`). -/
def getIntClaim (p : Payload) (c : String) : Except VerifyError Int :=
  match getClaim p c with
  | none => .error (.incompleteClaims c)
  | some v =>
    match pyInt v with
    | none => .error (.badClaimFormat c)
    | some n => .ok n

/-- `TokenService.verify(token, expected, accept_reuse)` at time `now` over
ledger `st`: header peek, key resolution, signature, `jwt.decode` claim
validation (require, iat/nbf/exp with leeway, audience, issuer), purpose
scoping, then the replay-prevention block.  Returns the claims and the
(possibly updated) ledger. -/
def verify (km : KeyManager) (st : Ledger) (now : Int)
    (token : Token) (expected : TokenConfig) (accept_reuse : Bool) :
    Except VerifyError (Payload × Ledger) :=
  -- Peek header for kid ("if not kid" also rejects an empty kid)
  match token.kid with
  | none => .error .malformedHeader
  | some kid =>
    if kid = "" then .error .malformedHeader
    else
    -- Fetch public key
    match km.get_public_key kid with
    | .error e => .error e
    | .ok _pub =>
      -- jwt.decode: signature over the payload with the resolved public key
      if token.signer ≠ kid then .error .badSignature
      else
      let p := token.payload
      -- options.require
      match restricted.find? (fun c => (getClaim p c).isNone) with
      | some c => .error (.incompleteClaims c)
      | none =>
        -- temporal claims, with leeway
        match getIntClaim p "iat" with
        | .error e => .error e
        | .ok iat =>
          if iat > now + expected.leeway_seconds then .error .notYetValid
          else match getIntClaim p "nbf" with
          | .error e => .error e
          | .ok nbf =>
            if nbf > now + expected.leeway_seconds then .error .notYetValid
            else match getIntClaim p "exp" with
            | .error e => .error e
            | .ok exp =>
              if exp ≤ now - expected.leeway_seconds then .error .expired
              -- audience and issuer scoping
              else if getClaim p "aud" ≠ some (.s expected.audience) then
                .error .audienceMismatch
              else if getClaim p "iss" ≠ some (.s expected.issuer) then
                .error .issuerMismatch
              -- Purpose scoping
              else if getClaim p "purpose" ≠ some (.s expected.purpose) then
                .error .purposeMismatch
              else
                -- Replay prevention
                let jti := optCvalStr (getClaim p "jti")
                let ttl := max 1 (exp - now)
                if expected.replay_prevent then
                  if JtiStore.existsKey st jti now then
                    if !accept_reuse then .error .reused
                    else .ok (p, st)
                  else
                    -- mark JTI as used for remaining TTL
                    .ok (p, JtiStore.mark st jti ttl now)
                else
                  .ok (p, st)

/-- `TokenService.revoke(token)` at time `now`.  The input is the outcome of
the unverified `jwt.decode`: `none` when the token cannot be parsed (silent
no-op), otherwise the raw payload.  `int(unverified.get("exp", 0))` failing
is also caught by the surrounding `try` and is a no-op; on success the
extracted jti (a missing jti interpolates as "None") is unconditionally
revoked with the floored remaining TTL. -/
def revoke (parsed : Option Payload) (st : Ledger) (now : Int) : Ledger :=
  match parsed with
  | none => st
  | some p =>
    match pyInt ((getClaim p "exp").getD (.i 0)) with
    | none => st
    | some exp =>
      let ttl := max 1 (exp - now)
      JtiStore.revoke st (optCvalStr (getClaim p "jti")) ttl now

/-- A caller's sequential run of repeated `verify` calls on one token at the
given call times, threading the jti-store state: a raising call leaves the
store untouched (the store is only written in the fresh-jti branch, after
which `verify` returns). -/
def verifySeq (km : KeyManager) (cfg : TokenConfig) (accept_reuse : Bool)
    (tok : Token) : List Int → Ledger → List (Except VerifyError Payload)
  | [], _ => []
  | t :: ts, st =>
    match verify km st t tok cfg accept_reuse with
    | .ok (p, st2) => .ok p :: verifySeq km cfg accept_reuse tok ts st2
    | .error e => .error e :: verifySeq km cfg accept_reuse tok ts st

/-- The claim set `issue` builds for subject `sub` under `config`, with fresh
id `jti`, issuance time `now` and not-before offset `off`. -/
def issuedPayload (sub : String) (config : TokenConfig) (jti : String)
    (now off : Int) : Payload :=
  [("iss", .s config.issuer), ("aud", .s config.audience), ("sub", .s sub),
   ("iat", .i now), ("nbf", .i (now + off)), ("exp", .i (now + config.timeout)),
   ("jti", .s jti), ("purpose", .s config.purpose)]

end TokenService

/-! ## Interleaving model of the replay-prevention block

`TokenService.verify` runs its single-use step as two separate store
operations: `self.jti_store.exists(jti)` and then, in the `else` branch,
`self.jti_store.mark(jti, ttl)`.  Each verifier thread therefore executes a
read step followed by a conditional write step against the shared ledger.  A
thread that observed `exists = False` returns the claims ("succeeds as first
use"); a thread that observed `exists = True` (with `accept_reuse = False`)
raises the reuse error. -/

/-- Thread identifier for a two-verifier race. -/
inductive Tid where
  | a
  | b
deriving DecidableEq, Repr

/-- Shared ledger plus each verifier's program counter (0 = about to read,
1 = about to write, 2 = done) and its observation of `exists`. -/
structure RaceState where
  st : Ledger
  pcA : Nat
  pcB : Nat
  obsA : Option Bool
  obsB : Option Bool
deriving DecidableEq, Repr

/-- One step of the named thread through the replay-prevention block of
`TokenService.verify` for token id `jti` with remaining TTL `ttl` at time
`now`: first the `exists` read, then `mark` exactly when the read observed
"not previously used". -/
def replayStep (jti : String) (ttl now : Int) (t : Tid) (s : RaceState) : RaceState :=
  match t with
  | .a =>
    match s.pcA with
    | 0 => { s with obsA := some (JtiStore.existsKey s.st jti now), pcA := 1 }
    | 1 =>
      if s.obsA = some false then
        { s with st := JtiStore.mark s.st jti ttl now, pcA := 2 }
      else
        { s with pcA := 2 }
    | _ => s
  | .b =>
    match s.pcB with
    | 0 => { s with obsB := some (JtiStore.existsKey s.st jti now), pcB := 1 }
    | 1 =>
      if s.obsB = some false then
        { s with st := JtiStore.mark s.st jti ttl now, pcB := 2 }
      else
        { s with pcB := 2 }
    | _ => s

/-- Run the two racing verifiers under a given interleaving schedule. -/
def runRace (jti : String) (ttl now : Int) (sched : List Tid) (s : RaceState) : RaceState :=
  sched.foldl (fun s t => replayStep jti ttl now t s) s

/-- Initial race state over a given ledger: both threads about to read. -/
def raceInit (st : Ledger) : RaceState :=
  { st := st, pcA := 0, pcB := 0, obsA := none, obsB := none }

/-- A verifier succeeds as first use exactly when its `exists` read observed
"not previously used". -/
def firstUseA (s : RaceState) : Bool := s.obsA = some false

/-- See `firstUseA`. -/
def firstUseB (s : RaceState) : Bool := s.obsB = some false

/-- Whether key material is of the expected (Ed25519) algorithm family. -/
def KeyBlob.isEd : KeyBlob → Bool
  | .ed25519Pem _ => true
  | .otherPem _ => false

/-! ## Concrete fixtures (the spec's example scenario: issuer "svc",
audience "user", purpose "email-verification", five-minute validity) -/

def km1 : KeyManager := ⟨["k1"], "k1"⟩

def cfgEx : TokenConfig :=
  { issuer := "svc", audience := "user", purpose := "email-verification",
    timeout := 300 }

def tokEx : Token :=
  ⟨some "k1", TokenService.issuedPayload "user:42" cfgEx "j1" 1000 0, "k1"⟩

/-! ## Helper lemmas -/

/-- Inversion of a successful `issue` with no extra claims: the signing
lookup succeeded and the token is the signed claim set under the current
kid. -/
theorem issue_ok_inv (km : KeyManager) (sub : String) (cfg : TokenConfig)
    (off : Int) (jti : String) (now : Int) (tok : Token)
    (h : TokenService.issue km sub cfg [] off jti now = .ok tok) :
    km.kids.contains km.current_kid = true ∧
      tok = ⟨some km.current_kid, TokenService.issuedPayload sub cfg jti now off,
             km.current_kid⟩ := by
  by_cases hk : km.current_kid ∈ km.kids
  · refine ⟨by simpa using hk, ?_⟩
    simp [TokenService.issue, KeyManager.sign?, hk,
          TokenService.issuedPayload] at h
    exact h.symm
  · simp [TokenService.issue, KeyManager.sign?, hk] at h

/-- Evaluation of `verify` on a token produced by `issue` (signed under any
registered key id `kid`, current or retired) and checked against the same
policy: only the temporal checks and the replay-prevention block remain. -/
theorem verify_issued_eq (km : KeyManager) (st : Ledger) (now_v : Int)
    (sub : String) (cfg : TokenConfig) (jti : String) (now_i off : Int) (ar : Bool)
    (kid : String)
    (hk : km.kids.contains kid = true)
    (hke : ¬ kid = "") :
    TokenService.verify km st now_v
        ⟨some kid, TokenService.issuedPayload sub cfg jti now_i off, kid⟩ cfg ar
      =
      (if now_i > now_v + cfg.leeway_seconds then .error .notYetValid
       else if now_i + off > now_v + cfg.leeway_seconds then .error .notYetValid
       else if now_i + cfg.timeout ≤ now_v - cfg.leeway_seconds then .error .expired
       else if cfg.replay_prevent then
         if JtiStore.existsKey st jti now_v then
           if !ar then .error .reused
           else .ok (TokenService.issuedPayload sub cfg jti now_i off, st)
         else
           .ok (TokenService.issuedPayload sub cfg jti now_i off,
                JtiStore.mark st jti (max 1 (now_i + cfg.timeout - now_v)) now_v)
       else .ok (TokenService.issuedPayload sub cfg jti now_i off, st)) := by
  have hk2 : kid ∈ km.kids := by simpa using hk
  simp [TokenService.verify, KeyManager.get_public_key, TokenService.issuedPayload,
        TokenService.getIntClaim, getClaim, pyInt, optCvalStr, cvalStr,
        TokenService.restricted, hk2, hke]

/-- A successful `loadKeys` returns exactly the supplied key ids, in
order. -/
theorem loadKeys_ok_kids (jwk : List (String × KeyBlob)) (kids : List String)
    (h : loadKeys jwk = .ok kids) : kids = jwk.map Prod.fst := by
  induction jwk generalizing kids with
  | nil =>
    simp [loadKeys] at h
    simp [h.symm]
  | cons e rest ih =>
    obtain ⟨kid, blob⟩ := e
    cases blob with
    | ed25519Pem s =>
      cases hrest : loadKeys rest with
      | ok ks =>
        simp [loadKeys, hrest] at h
        simp [← h, ih ks hrest]
      | error err => simp [loadKeys, hrest] at h
    | otherPem s => simp [loadKeys] at h

/-- `loadKeys` fails whenever some supplied key is not Ed25519. -/
theorem loadKeys_bad (jwk : List (String × KeyBlob))
    (h : ∃ e ∈ jwk, e.2.isEd = false) (kids : List String) :
    loadKeys jwk ≠ .ok kids := by
  induction jwk generalizing kids with
  | nil => simp at h
  | cons e rest ih =>
    intro hk
    obtain ⟨kid, blob⟩ := e
    cases blob with
    | ed25519Pem s =>
      rcases h with ⟨e2, he2, hbad⟩
      rcases List.mem_cons.mp he2 with h1 | h1
      · rw [h1] at hbad
        simp [KeyBlob.isEd] at hbad
      · cases hrest : loadKeys rest with
        | ok ks => exact ih ⟨e2, h1, hbad⟩ ks hrest
        | error err => simp [loadKeys, hrest] at hk
    | otherPem s => simp [loadKeys] at hk

/-! ## Claims -/

/-- C1: the replay-prevention block of `TokenService.verify` is a separate
`exists` read followed by a conditional `mark` write, not one atomic
insert-if-absent.  Under the interleaving read-read-write-write, both
concurrent first-time verifications of a fresh single-use token observe
"not previously used" and succeed as first use, refuting the claim that
exactly one does. -/
theorem c1_concurrent_first_use_race :
    firstUseA (runRace "j1" 295 1005 [Tid.a, Tid.b, Tid.a, Tid.b] (raceInit [])) = true
    ∧ firstUseB (runRace "j1" 295 1005 [Tid.a, Tid.b, Tid.a, Tid.b] (raceInit [])) = true := by
  decide

/-- C6: issuing with extra claims that contain a reserved claim name fails
with the reserved-claim-collision error and produces no token (the error is
returned before any signing). -/
theorem c6_reserved_claim_collision (km : KeyManager) (sub : String)
    (cfg : TokenConfig) (extra : Payload) (off : Int) (jti : String) (now : Int)
    (h : extra.any (fun kv => TokenService.restricted.contains kv.1) = true) :
    TokenService.issue km sub cfg extra off jti now
      = .error .reservedClaimCollision := by
  simp only [TokenService.issue, h, if_true]

/-- Witness for C6 at the spec's example scenario with `extra = {"sub": "x"}`. -/
theorem c6_reserved_claim_collision_witness :
    TokenService.issue km1 "user:42" cfgEx [("sub", .s "x")] 0 "j1" 1000
      = .error .reservedClaimCollision :=
  c6_reserved_claim_collision km1 "user:42" cfgEx [("sub", .s "x")] 0 "j1" 1000
    (by decide)

/-- C8: `KeyManager` construction fails when the designated current key id is
absent, references no supplied key, or some supplied key is not Ed25519; and
whenever construction succeeds, the current key id resolves to a registered
private key, so `sign` never fails on key lookup at call time. -/
theorem c8_construction_safety (jwk : List (String × KeyBlob)) (env : Option String) :
    (∀ km, KeyManager.build jwk env = .ok km →
        km.kids.contains km.current_kid = true ∧ ∀ p, (km.sign? p).isSome = true)
    ∧ (env = none → ∀ km, KeyManager.build jwk env ≠ .ok km)
    ∧ (∀ c, env = some c → (jwk.map Prod.fst).contains c = false →
        ∀ km, KeyManager.build jwk env ≠ .ok km)
    ∧ ((∃ e ∈ jwk, e.2.isEd = false) →
        ∀ km, KeyManager.build jwk env ≠ .ok km) := by
  refine ⟨?_, ?_, ?_, ?_⟩
  · intro km h
    cases hload : loadKeys jwk with
    | error err => simp [KeyManager.build, hload] at h
    | ok kids =>
      cases env with
      | none => simp [KeyManager.build, hload] at h
      | some c =>
        by_cases hc0 : c = ""
        · simp [KeyManager.build, hload, hc0] at h
        · by_cases hcin : kids.contains c = true
          · have hmem : c ∈ kids := by simpa using hcin
            simp [KeyManager.build, hload, hc0, hmem] at h
            subst h
            constructor
            · simpa using hcin
            · intro p
              simp [KeyManager.sign?, hmem]
          · have hmem : c ∉ kids := by simpa using hcin
            simp [KeyManager.build, hload, hc0, hmem] at h
  · rintro rfl km h
    cases hload : loadKeys jwk with
    | error err => simp [KeyManager.build, hload] at h
    | ok kids => simp [KeyManager.build, hload] at h
  · rintro c rfl hc km h
    cases hload : loadKeys jwk with
    | error err => simp [KeyManager.build, hload] at h
    | ok kids =>
      have hkids : kids = jwk.map Prod.fst := loadKeys_ok_kids jwk kids hload
      have hmem : c ∉ kids := by
        rw [hkids]
        simpa using hc
      by_cases hc0 : c = ""
      · simp [KeyManager.build, hload, hc0] at h
      · simp [KeyManager.build, hload, hc0, hmem] at h
  · intro hbad km h
    cases hload : loadKeys jwk with
    | error err => simp [KeyManager.build, hload] at h
    | ok kids => exact loadKeys_bad jwk hbad kids hload

/-- Witness for C8: a one-key authority built from an Ed25519 key with a
matching current id constructs, and its signing lookup succeeds. -/
theorem c8_construction_safety_witness :
    KeyManager.build [("k1", KeyBlob.ed25519Pem 0)] (some "k1") = .ok km1
    ∧ km1.kids.contains km1.current_kid = true
    ∧ (km1.sign? []).isSome = true := by
  refine ⟨by rfl, ?_, ?_⟩
  · exact ((c8_construction_safety [("k1", KeyBlob.ed25519Pem 0)] (some "k1")).1
      km1 (by rfl)).1
  · exact ((c8_construction_safety [("k1", KeyBlob.ed25519Pem 0)] (some "k1")).1
      km1 (by rfl)).2 []

/-- C9: `revoke` never raises (it is a total function into ledgers): on an
unparseable token, and on a payload whose `exp` value `int()` rejects (the
failure is inside the same `try`), it leaves the ledger unchanged; on parse
success it unconditionally overwrites the extracted token id's entry with
TTL `max 1 (exp - now)`, leaving the id marked. -/
theorem c9_revoke_noop_and_unconditional_mark :
    (∀ st now, TokenService.revoke none st now = st)
    ∧ (∀ p st now, pyInt ((getClaim p "exp").getD (.i 0)) = none →
        TokenService.revoke (some p) st now = st)
    ∧ (∀ p st now e, pyInt ((getClaim p "exp").getD (.i 0)) = some e →
        TokenService.revoke (some p) st now
          = JtiStore.revoke st (optCvalStr (getClaim p "jti")) (max 1 (e - now)) now
        ∧ JtiStore.existsKey (TokenService.revoke (some p) st now)
            (optCvalStr (getClaim p "jti")) now = true) := by
  refine ⟨fun st now => rfl, ?_, ?_⟩
  · intro p st now h
    simp [TokenService.revoke, h]
  · intro p st now e h
    have hle : now ≤ now + max 1 (e - now) := by omega
    refine ⟨by simp [TokenService.revoke, h], ?_⟩
    simp [TokenService.revoke, h, JtiStore.revoke, JtiStore.existsKey, hle]

/-- Witness for C9 on a concrete parsed payload. -/
theorem c9_revoke_noop_and_unconditional_mark_witness :
    TokenService.revoke (some [("jti", CVal.s "j1"), ("exp", CVal.i 1300)]) [] 1000
      = JtiStore.revoke []
          (optCvalStr (getClaim [("jti", CVal.s "j1"), ("exp", CVal.i 1300)] "jti"))
          (max 1 (1300 - 1000)) 1000
    ∧ JtiStore.existsKey
        (TokenService.revoke (some [("jti", CVal.s "j1"), ("exp", CVal.i 1300)]) [] 1000)
        (optCvalStr (getClaim [("jti", CVal.s "j1"), ("exp", CVal.i 1300)] "jti"))
        1000 = true :=
  c9_revoke_noop_and_unconditional_mark.2.2
    [("jti", CVal.s "j1"), ("exp", CVal.i 1300)] [] 1000 1300 (by decide)

/-- C2: verifying a token immediately after issuing it under the same policy
— inside the validity window, with the token id not yet in the ledger —
succeeds and returns a claim set whose subject is the issued subject, whose
issuer, audience and purpose equal the policy's, and whose expires-at claim
equals the issued-at claim plus the policy's validity duration. -/
theorem c2_issue_verify_roundtrip
    (km : KeyManager) (st : Ledger) (sub : String) (cfg : TokenConfig)
    (jti : String) (now_i now_v : Int) (tok : Token)
    (hke : ¬ km.current_kid = "")
    (hiss : TokenService.issue km sub cfg [] 0 jti now_i = .ok tok)
    (hfresh : JtiStore.existsKey st jti now_v = false)
    (hlee : 0 ≤ cfg.leeway_seconds)
    (hlo : now_i ≤ now_v)
    (hhi : now_v < now_i + cfg.timeout + cfg.leeway_seconds) :
    ∃ st2, TokenService.verify km st now_v tok cfg false = .ok (tok.payload, st2)
      ∧ getClaim tok.payload "sub" = some (.s sub)
      ∧ getClaim tok.payload "iss" = some (.s cfg.issuer)
      ∧ getClaim tok.payload "aud" = some (.s cfg.audience)
      ∧ getClaim tok.payload "purpose" = some (.s cfg.purpose)
      ∧ getClaim tok.payload "iat" = some (.i now_i)
      ∧ getClaim tok.payload "exp" = some (.i (now_i + cfg.timeout)) := by
  obtain ⟨hk, rfl⟩ := issue_ok_inv km sub cfg 0 jti now_i tok hiss
  have h1 : ¬ now_i > now_v + cfg.leeway_seconds := by omega
  have h2 : ¬ now_i + 0 > now_v + cfg.leeway_seconds := by omega
  have h3 : ¬ now_i + cfg.timeout ≤ now_v - cfg.leeway_seconds := by omega
  rw [verify_issued_eq km st now_v sub cfg jti now_i 0 false km.current_kid hk hke]
  by_cases hr : cfg.replay_prevent
  · refine ⟨JtiStore.mark st jti (max 1 (now_i + cfg.timeout - now_v)) now_v,
      ?_, ?_, ?_, ?_, ?_, ?_, ?_⟩
    · simp [h1, h2, h3, hr, hfresh]
    all_goals simp [getClaim, TokenService.issuedPayload]
  · refine ⟨st, ?_, ?_, ?_, ?_, ?_, ?_, ?_⟩
    · simp [h1, h2, h3, hr]
    all_goals simp [getClaim, TokenService.issuedPayload]

/-- Witness for C2 at the spec's example scenario, verified five seconds
after issuance. -/
theorem c2_issue_verify_roundtrip_witness :
    ∃ st2, TokenService.verify km1 [] 1005 tokEx cfgEx false = .ok (tokEx.payload, st2)
      ∧ getClaim tokEx.payload "sub" = some (.s "user:42")
      ∧ getClaim tokEx.payload "iss" = some (.s cfgEx.issuer)
      ∧ getClaim tokEx.payload "aud" = some (.s cfgEx.audience)
      ∧ getClaim tokEx.payload "purpose" = some (.s cfgEx.purpose)
      ∧ getClaim tokEx.payload "iat" = some (.i 1000)
      ∧ getClaim tokEx.payload "exp" = some (.i (1000 + cfgEx.timeout)) :=
  c2_issue_verify_roundtrip km1 [] "user:42" cfgEx "j1" 1000 1005 tokEx
    (by decide) (by rfl) (by rfl) (by decide) (by decide) (by decide)

/-- C3: for a token issued under a replay-preventing policy, in a sequential
run of repeated `verify` calls with `accept_reuse = false`, all during the
token's validity, the first call succeeds and every subsequent call fails
with the reuse-detected kind.  (The call times are constrained to the
token's natural lifetime `now ≤ expiresAt`: the ledger entry's TTL is the
remaining time to expiry, so it is live at each later call.) -/
theorem c3_single_use_sequential
    (km : KeyManager) (st : Ledger) (sub : String) (cfg : TokenConfig)
    (jti : String) (now_i t1 : Int) (ts : List Int) (tok : Token)
    (hke : ¬ km.current_kid = "")
    (hiss : TokenService.issue km sub cfg [] 0 jti now_i = .ok tok)
    (hrp : cfg.replay_prevent = true)
    (hlee : 0 ≤ cfg.leeway_seconds)
    (hfresh : JtiStore.existsKey st jti t1 = false)
    (ht1 : now_i ≤ t1 ∧ t1 ≤ now_i + cfg.timeout
      ∧ t1 < now_i + cfg.timeout + cfg.leeway_seconds)
    (hts : ∀ t ∈ ts, now_i ≤ t ∧ t ≤ now_i + cfg.timeout
      ∧ t < now_i + cfg.timeout + cfg.leeway_seconds) :
    TokenService.verifySeq km cfg false tok (t1 :: ts) st
      = .ok tok.payload :: ts.map (fun _ => .error .reused) := by
  obtain ⟨hk, rfl⟩ := issue_ok_inv km sub cfg 0 jti now_i tok hiss
  obtain ⟨h11, h12, h13⟩ := ht1
  have hv1 : TokenService.verify km st t1
      ⟨some km.current_kid, TokenService.issuedPayload sub cfg jti now_i 0,
       km.current_kid⟩ cfg false
      = .ok (TokenService.issuedPayload sub cfg jti now_i 0,
             JtiStore.mark st jti (max 1 (now_i + cfg.timeout - t1)) t1) := by
    rw [verify_issued_eq km st t1 sub cfg jti now_i 0 false km.current_kid hk hke]
    have e1 : ¬ now_i > t1 + cfg.leeway_seconds := by omega
    have e2 : ¬ now_i + 0 > t1 + cfg.leeway_seconds := by omega
    have e3 : ¬ now_i + cfg.timeout ≤ t1 - cfg.leeway_seconds := by omega
    simp [e1, e2, e3, hrp, hfresh]
  set st2 := JtiStore.mark st jti (max 1 (now_i + cfg.timeout - t1)) t1 with hst2
  have hmark : st2 = (jti, t1 + max 1 (now_i + cfg.timeout - t1)) :: st := by
    rw [hst2, JtiStore.mark, hfresh]
    simp
  have hlive : ∀ t : Int, t ≤ now_i + cfg.timeout →
      JtiStore.existsKey st2 jti t = true := by
    intro t ht
    have hb : t ≤ t1 + max 1 (now_i + cfg.timeout - t1) := by omega
    rw [hmark]
    simp only [JtiStore.existsKey, List.any_cons, Bool.or_eq_true, Bool.and_eq_true,
               beq_iff_eq, decide_eq_true_eq]
    exact Or.inl ⟨trivial, hb⟩
  have haux : ∀ (l : List Int),
      (∀ t ∈ l, now_i ≤ t ∧ t ≤ now_i + cfg.timeout
        ∧ t < now_i + cfg.timeout + cfg.leeway_seconds) →
      TokenService.verifySeq km cfg false
          ⟨some km.current_kid, TokenService.issuedPayload sub cfg jti now_i 0,
           km.current_kid⟩ l st2
        = l.map (fun _ => .error .reused) := by
    intro l
    induction l with
    | nil => intro _; simp [TokenService.verifySeq]
    | cons t rest ih =>
      intro hl
      obtain ⟨g1, g2, g3⟩ := hl t (List.mem_cons_self t rest)
      have hv : TokenService.verify km st2 t
          ⟨some km.current_kid, TokenService.issuedPayload sub cfg jti now_i 0,
           km.current_kid⟩ cfg false = .error .reused := by
        rw [verify_issued_eq km st2 t sub cfg jti now_i 0 false km.current_kid hk hke]
        have e1 : ¬ now_i > t + cfg.leeway_seconds := by omega
        have e2 : ¬ now_i + 0 > t + cfg.leeway_seconds := by omega
        have e3 : ¬ now_i + cfg.timeout ≤ t - cfg.leeway_seconds := by omega
        simp [e1, e2, e3, hrp, hlive t g2]
      simp [TokenService.verifySeq, hv,
            ih (fun x hx => hl x (List.mem_cons_of_mem t hx))]
  simp [TokenService.verifySeq, hv1, haux ts hts]

/-- Witness for C3: three sequential verifications at seconds 1005, 1010 and
1200 of a token expiring at 1300. -/
theorem c3_single_use_sequential_witness :
    TokenService.verifySeq km1 cfgEx false tokEx [1005, 1010, 1200] []
      = .ok tokEx.payload
          :: List.map (fun _ => Except.error VerifyError.reused) [1010, 1200] :=
  c3_single_use_sequential km1 [] "user:42" cfgEx "j1" 1000 1005 [1010, 1200] tokEx
    (by decide) (by rfl) (by rfl) (by decide) (by rfl) (by decide) (by decide)

/-- C3 counterexample: both calls lie inside the verification window the
code itself enforces (expiry 1300, leeway 10, so acceptance up to 1310),
yet the SECOND call also succeeds as first use: the first call at 1300
marks the jti with TTL `max 1 (exp - now) = 1`, the entry lapses at 1301,
and the call at 1305 finds the ledger empty again — it does not fail with
the reuse-detected kind as the claim requires. -/
theorem c3_leeway_fringe_counterexample :
    TokenService.verifySeq km1 cfgEx false tokEx [1300, 1305] []
      = [.ok tokEx.payload, .ok tokEx.payload]
    ∧ Except.error VerifyError.reused
        ∉ TokenService.verifySeq km1 cfgEx false tokEx [1300, 1305] [] := by
  have heval : TokenService.verifySeq km1 cfgEx false tokEx [1300, 1305] []
      = [.ok tokEx.payload, .ok tokEx.payload] := rfl
  refine ⟨heval, ?_⟩
  rw [heval]
  simp

/-- C5 counterexample: a token revoked at 1299 (entry TTL
`max 1 (1300 - 1299) = 1`, lapsing at 1300) and verified at 1305 — a time
the code's own temporal check still accepts (leeway 10) — is NOT rejected
as reused: the verification succeeds, refuting the claim over the
leeway-extended validity window. -/
theorem c5_leeway_fringe_counterexample :
    TokenService.verify km1 (TokenService.revoke (some tokEx.payload) [] 1299)
        1305 tokEx cfgEx false
      ≠ .error .reused := by
  have heval : TokenService.verify km1
      (TokenService.revoke (some tokEx.payload) [] 1299) 1305 tokEx cfgEx false
      = .ok (tokEx.payload, [("j1", 1306), ("j1", 1300)]) := rfl
  rw [heval]
  simp

/-- C4 counterexample: for an otherwise-valid token (issued at 1000, expiry
1300, leeway 10), verification at the exact boundary instant
`now = expiresAt + leeway = 1310` fails with the expired kind — the claim
says this instant passes the temporal check.  (PyJWT raises expired when
`exp <= now - leeway`, so the boundary is rejected.) -/
theorem c4_boundary_counterexample :
    TokenService.verify km1 [] 1310 tokEx cfgEx false = .error .expired := by
  rfl

/-- C4 amended: for an otherwise-valid issued token, `verify` fails with the
not-yet-valid kind exactly when `now < notBefore - leeway`, fails with the
expired kind exactly when `now ≥ expiresAt + leeway` (so the boundary
`now = expiresAt + leeway` is rejected as expired), and passes the temporal
check at `now = expiresAt + leeway - 1`. -/
theorem c4_temporal_window_exact
    (km : KeyManager) (st : Ledger) (sub : String) (cfg : TokenConfig)
    (jti : String) (now_i off now_v : Int) (tok : Token)
    (hke : ¬ km.current_kid = "")
    (hiss : TokenService.issue km sub cfg [] off jti now_i = .ok tok)
    (hoff : 0 ≤ off)
    (hlee : 0 ≤ cfg.leeway_seconds)
    (hsane : off ≤ cfg.timeout + 2 * cfg.leeway_seconds) :
    (TokenService.verify km st now_v tok cfg false = .error .notYetValid
      ↔ now_v < now_i + off - cfg.leeway_seconds)
    ∧ (TokenService.verify km st now_v tok cfg false = .error .expired
      ↔ now_i + cfg.timeout + cfg.leeway_seconds ≤ now_v)
    ∧ (now_v = now_i + cfg.timeout + cfg.leeway_seconds - 1 →
        now_i + off - cfg.leeway_seconds ≤ now_v →
        TokenService.verify km st now_v tok cfg false ≠ .error .notYetValid
        ∧ TokenService.verify km st now_v tok cfg false ≠ .error .expired) := by
  obtain ⟨hk, rfl⟩ := issue_ok_inv km sub cfg off jti now_i tok hiss
  rw [verify_issued_eq km st now_v sub cfg jti now_i off false km.current_kid hk hke]
  split_ifs with h1 h2 h3 h4 h5 h6 <;>
    refine ⟨?_, ?_, ?_⟩ <;>
    simp_all <;>
    omega

/-- Witness for C4's amended theorem at the example scenario: inside the
window at 1250 nothing temporal fires, and the characterizations hold. -/
theorem c4_temporal_window_exact_witness :
    (TokenService.verify km1 [] 1250 tokEx cfgEx false = .error .notYetValid
      ↔ (1250 : Int) < 1000 + 0 - cfgEx.leeway_seconds)
    ∧ (TokenService.verify km1 [] 1250 tokEx cfgEx false = .error .expired
      ↔ 1000 + cfgEx.timeout + cfgEx.leeway_seconds ≤ (1250 : Int))
    ∧ ((1250 : Int) = 1000 + cfgEx.timeout + cfgEx.leeway_seconds - 1 →
        1000 + 0 - cfgEx.leeway_seconds ≤ (1250 : Int) →
        TokenService.verify km1 [] 1250 tokEx cfgEx false ≠ .error .notYetValid
        ∧ TokenService.verify km1 [] 1250 tokEx cfgEx false ≠ .error .expired) :=
  c4_temporal_window_exact km1 [] "user:42" cfgEx "j1" 1000 0 1250 tokEx
    (by decide) (by rfl) (by decide) (by decide) (by decide)

/-- C5: for an issued token under a replay-preventing policy, `revoke`
followed by `verify` (with `accept_reuse = false`, inside the token's
validity `now ≤ expiresAt`) fails with the reuse-detected kind — over any
prior ledger state, so in particular when the token was never verified
before the revocation. -/
theorem c5_revoke_then_verify_reused
    (km : KeyManager) (st : Ledger) (sub : String) (cfg : TokenConfig)
    (jti : String) (now_i now_r now_v : Int) (tok : Token)
    (hke : ¬ km.current_kid = "")
    (hiss : TokenService.issue km sub cfg [] 0 jti now_i = .ok tok)
    (hrp : cfg.replay_prevent = true)
    (hlee : 0 ≤ cfg.leeway_seconds)
    (hv1 : now_i ≤ now_v)
    (hv2 : now_v ≤ now_i + cfg.timeout)
    (hv3 : now_v < now_i + cfg.timeout + cfg.leeway_seconds) :
    TokenService.verify km (TokenService.revoke (some tok.payload) st now_r)
        now_v tok cfg false
      = .error .reused := by
  obtain ⟨hk, rfl⟩ := issue_ok_inv km sub cfg 0 jti now_i tok hiss
  have hrev : TokenService.revoke
      (some (TokenService.issuedPayload sub cfg jti now_i 0)) st now_r
      = (jti, now_r + max 1 (now_i + cfg.timeout - now_r))
          :: st.filter (fun e => !(e.1 == jti)) := by
    simp [TokenService.revoke, TokenService.issuedPayload, getClaim, pyInt,
          optCvalStr, cvalStr, JtiStore.revoke]
  have hex : JtiStore.existsKey
      ((jti, now_r + max 1 (now_i + cfg.timeout - now_r))
        :: st.filter (fun e => !(e.1 == jti))) jti now_v = true := by
    have hb : now_v ≤ now_r + max 1 (now_i + cfg.timeout - now_r) := by omega
    simp only [JtiStore.existsKey, List.any_cons, Bool.or_eq_true, Bool.and_eq_true,
               beq_iff_eq, decide_eq_true_eq]
    exact Or.inl ⟨trivial, hb⟩
  have h1 : ¬ now_i > now_v + cfg.leeway_seconds := by omega
  have h2 : ¬ now_i + 0 > now_v + cfg.leeway_seconds := by omega
  have h3 : ¬ now_i + cfg.timeout ≤ now_v - cfg.leeway_seconds := by omega
  show TokenService.verify km
      (TokenService.revoke (some (TokenService.issuedPayload sub cfg jti now_i 0)) st now_r)
      now_v _ cfg false = .error .reused
  rw [hrev,
      verify_issued_eq km _ now_v sub cfg jti now_i 0 false km.current_kid hk hke]
  simp [h1, h2, h3, hrp, hex]

/-- Witness for C5: revoke at 1001, verify at 1100, never verified before. -/
theorem c5_revoke_then_verify_reused_witness :
    TokenService.verify km1 (TokenService.revoke (some tokEx.payload) [] 1001)
        1100 tokEx cfgEx false
      = .error .reused :=
  c5_revoke_then_verify_reused km1 [] "user:42" cfgEx "j1" 1000 1001 1100 tokEx
    (by decide) (by rfl) (by rfl) (by decide) (by decide) (by decide) (by decide)

/-- C7: `get_public_key` returns the public key of every registered key id
(current or retired) and fails with the unknown-key kind on an id that was
never registered; a non-expired token signed under a retired key id that
remains registered verifies successfully under the rotated authority. -/
theorem c7_key_resolution_rotation (km : KeyManager) (kid : String) :
    (km.kids.contains kid = true → km.get_public_key kid = .ok kid)
    ∧ (km.kids.contains kid = false → km.get_public_key kid = .error .unknownKey)
    ∧ (∀ (kmOld : KeyManager) (st : Ledger) (sub : String) (cfg : TokenConfig)
         (jti : String) (now_i now_v : Int) (tok : Token),
        kmOld.current_kid = kid →
        TokenService.issue kmOld sub cfg [] 0 jti now_i = .ok tok →
        km.kids.contains kid = true →
        ¬ kid = "" →
        0 ≤ cfg.leeway_seconds →
        now_i ≤ now_v →
        now_v < now_i + cfg.timeout + cfg.leeway_seconds →
        JtiStore.existsKey st jti now_v = false →
        ∃ st2, TokenService.verify km st now_v tok cfg false
          = .ok (tok.payload, st2)) := by
  refine ⟨?_, ?_, ?_⟩
  · intro h
    simp [KeyManager.get_public_key, h]
    simpa using h
  · intro h
    simp [KeyManager.get_public_key, h]
    simpa using h
  · intro kmOld st sub cfg jti now_i now_v tok hcur hiss hreg hke0 hlee hlo hhi hfresh
    obtain ⟨hkOld, rfl⟩ := issue_ok_inv kmOld sub cfg 0 jti now_i tok hiss
    rw [hcur]
    have h1 : ¬ now_i > now_v + cfg.leeway_seconds := by omega
    have h2 : ¬ now_i + 0 > now_v + cfg.leeway_seconds := by omega
    have h3 : ¬ now_i + cfg.timeout ≤ now_v - cfg.leeway_seconds := by omega
    rw [verify_issued_eq km st now_v sub cfg jti now_i 0 false kid hreg hke0]
    by_cases hr : cfg.replay_prevent
    · exact ⟨JtiStore.mark st jti (max 1 (now_i + cfg.timeout - now_v)) now_v,
        by simp [h1, h2, h3, hr, hfresh]⟩
    · exact ⟨st, by simp [h1, h2, h3, hr]⟩

/-- Witness for C7: the rotated authority `{k1 (current), k0}` resolves the
retired id `k0`, and a token signed under `k0` (issued when `k0` was
current) still verifies under it. -/
theorem c7_key_resolution_rotation_witness :
    (KeyManager.get_public_key ⟨["k1", "k0"], "k1"⟩ "k0" = .ok "k0")
    ∧ ∃ st2, TokenService.verify ⟨["k1", "k0"], "k1"⟩ [] 1005
          ⟨some "k0", TokenService.issuedPayload "user:42" cfgEx "j0" 1000 0, "k0"⟩
          cfgEx false
        = .ok ((⟨some "k0", TokenService.issuedPayload "user:42" cfgEx "j0" 1000 0,
                "k0"⟩ : Token).payload, st2) :=
  ⟨(c7_key_resolution_rotation ⟨["k1", "k0"], "k1"⟩ "k0").1 (by rfl),
   (c7_key_resolution_rotation ⟨["k1", "k0"], "k1"⟩ "k0").2.2
     ⟨["k0"], "k0"⟩ [] "user:42" cfgEx "j0" 1000 1005
     ⟨some "k0", TokenService.issuedPayload "user:42" cfgEx "j0" 1000 0, "k0"⟩
     (by rfl) (by rfl) (by rfl) (by decide) (by decide) (by decide) (by decide)
     (by rfl)⟩

/-- C10: with replay prevention enabled and a fresh token id, a successful
`verify` marks the id regardless of the `accept_reuse` flag (the flag only
suppresses rejection of an already-marked token), so a verify with
`accept_reuse = true` still consumes the token's single use: any later
verify with `accept_reuse = false` during the token's validity fails with
the reuse-detected kind. -/
theorem c10_allow_reuse_still_marks
    (km : KeyManager) (st : Ledger) (sub : String) (cfg : TokenConfig)
    (jti : String) (now_i now_v : Int) (tok : Token) (ar : Bool)
    (hke : ¬ km.current_kid = "")
    (hiss : TokenService.issue km sub cfg [] 0 jti now_i = .ok tok)
    (hrp : cfg.replay_prevent = true)
    (hfresh : JtiStore.existsKey st jti now_v = false)
    (hlee : 0 ≤ cfg.leeway_seconds)
    (hlo : now_i ≤ now_v)
    (hmid : now_v ≤ now_i + cfg.timeout)
    (hhi : now_v < now_i + cfg.timeout + cfg.leeway_seconds) :
    TokenService.verify km st now_v tok cfg ar
      = .ok (tok.payload,
             JtiStore.mark st jti (max 1 (now_i + cfg.timeout - now_v)) now_v)
    ∧ (∀ t2, now_i ≤ t2 → t2 ≤ now_i + cfg.timeout →
        t2 < now_i + cfg.timeout + cfg.leeway_seconds →
        TokenService.verify km
            (JtiStore.mark st jti (max 1 (now_i + cfg.timeout - now_v)) now_v)
            t2 tok cfg false
          = .error .reused) := by
  obtain ⟨hk, rfl⟩ := issue_ok_inv km sub cfg 0 jti now_i tok hiss
  have h1 : ¬ now_i > now_v + cfg.leeway_seconds := by omega
  have h2 : ¬ now_i + 0 > now_v + cfg.leeway_seconds := by omega
  have h3 : ¬ now_i + cfg.timeout ≤ now_v - cfg.leeway_seconds := by omega
  have hmark : JtiStore.mark st jti (max 1 (now_i + cfg.timeout - now_v)) now_v
      = (jti, now_v + max 1 (now_i + cfg.timeout - now_v)) :: st := by
    rw [JtiStore.mark, hfresh]
    simp
  constructor
  · rw [verify_issued_eq km st now_v sub cfg jti now_i 0 ar km.current_kid hk hke]
    simp [h1, h2, h3, hrp, hfresh]
  · intro t2 g1 g2 g3
    have hex : JtiStore.existsKey
        (JtiStore.mark st jti (max 1 (now_i + cfg.timeout - now_v)) now_v)
        jti t2 = true := by
      have hb : t2 ≤ now_v + max 1 (now_i + cfg.timeout - now_v) := by omega
      rw [hmark]
      simp only [JtiStore.existsKey, List.any_cons, Bool.or_eq_true, Bool.and_eq_true,
                 beq_iff_eq, decide_eq_true_eq]
      exact Or.inl ⟨trivial, hb⟩
    have e1 : ¬ now_i > t2 + cfg.leeway_seconds := by omega
    have e2 : ¬ now_i + 0 > t2 + cfg.leeway_seconds := by omega
    have e3 : ¬ now_i + cfg.timeout ≤ t2 - cfg.leeway_seconds := by omega
    rw [verify_issued_eq km _ t2 sub cfg jti now_i 0 false km.current_kid hk hke]
    simp [e1, e2, e3, hrp, hex]

/-- Witness for C10: a verify with `accept_reuse = true` at 1005 marks the
fresh id, and a later verify with `accept_reuse = false` at 1200 is
rejected as reuse. -/
theorem c10_allow_reuse_still_marks_witness :
    TokenService.verify km1 [] 1005 tokEx cfgEx true
      = .ok (tokEx.payload,
             JtiStore.mark [] "j1" (max 1 (1000 + cfgEx.timeout - 1005)) 1005)
    ∧ TokenService.verify km1
        (JtiStore.mark [] "j1" (max 1 (1000 + cfgEx.timeout - 1005)) 1005)
        1200 tokEx cfgEx false
      = .error .reused := by
  have h := c10_allow_reuse_still_marks km1 [] "user:42" cfgEx "j1" 1000 1005 tokEx
    true (by decide) (by rfl) (by rfl) (by rfl) (by decide) (by decide) (by decide)
    (by decide)
  exact ⟨h.1, h.2 1200 (by decide) (by decide) (by decide)⟩

end Authmint
